import Mathlib

/-!
Shallow embedding of the gold-price bot (`bot_gold_price.py`): the price
normalizer, the item-price lookup, the per-source table classifiers and
extractors, the aggregation wrapper, and the history/trend computation.

Modelling conventions:
* Python `Optional[T]` becomes `Option T`; a function annotated to raise
  becomes `Except String`.
* Python `dict` (insertion-ordered) becomes an association list; dict
  assignment is `dictInsert` (replace in place on an existing key, append
  otherwise) and `dict.get` is `List.lookup`.
* `str.lower` / `str.strip` / `str.join` are modelled by the list-based
  `pyLower` / `pyStrip` / `pyJoin` (faithful on the ASCII characters the
  code's keywords rely on); `ch.isdigit()` by `Char.isDigit`.
* `a in b` on strings (contiguous substring test) is `pyIn`.
* Machine-independent `int` arithmetic is `Int` / `Nat` (Python ints are
  unbounded).
-/

namespace GoldBot

/-- `charsStartWith n h`: `n` is an initial segment of `h`. -/
def charsStartWith : List Char → List Char → Bool
  | [], _ => true
  | _ :: _, [] => false
  | a :: as, b :: bs => a == b && charsStartWith as bs

/-- `charsContain n h`: `n` occurs contiguously inside `h`. -/
def charsContain (needle : List Char) : List Char → Bool
  | [] => needle.isEmpty
  | b :: bs => charsStartWith needle (b :: bs) || charsContain needle bs

/-- Python `needle in hay` for strings: contiguous substring containment. -/
def pyIn (needle hay : String) : Bool :=
  charsContain needle.data hay.data

/-- Python `str.lower`, character by character. -/
def pyLower (s : String) : String :=
  ⟨s.data.map Char.toLower⟩

/-- Python `str.strip`: drop whitespace from both ends. -/
def pyStrip (s : String) : String :=
  ⟨((s.data.dropWhile Char.isWhitespace).reverse.dropWhile
      Char.isWhitespace).reverse⟩

/-- Python `sep.join(parts)`. -/
def pyJoin (sep : String) : List String → String
  | [] => ""
  | s :: rest => rest.foldl (fun acc t => acc ++ sep ++ t) s

/-- Decimal value of a most-significant-first digit-character list; models
Python `int(digits)` on a string of ASCII digits. -/
def natOfDigits (l : List Char) : Nat :=
  l.foldl (fun a c => 10 * a + (c.toNat - 48)) 0

/-- Models `_normalize_price_to_vnd` (lines 22-44): keep only the digit
characters of `str(value)`; `none` when no digit remains; parse, and
multiply by 1000 when there are at most 6 digits.  Total, hence the
Python function's "never raises" contract. -/
def normalizePriceToVnd (value : Option String) : Option Int :=
  match value with
  | none => none
  | some s =>
    let digits := s.data.filter Char.isDigit
    if digits.isEmpty then none
    else if digits.length ≤ 6 then some ((natOfDigits digits : Int) * 1000)
    else some (natOfDigits digits)

/-- Digit rendering helper for `natToStr` (fuel-structured so that it
reduces definitionally). -/
def natToStrAux : Nat → Nat → List Char
  | 0, _ => []
  | fuel + 1, n =>
    if n < 10 then [Char.ofNat (48 + n)]
    else natToStrAux fuel (n / 10) ++ [Char.ofNat (48 + n % 10)]

/-- Models Python `str` on a non-negative integer. -/
def natToStr (n : Nat) : String :=
  ⟨natToStrAux (n + 1) n⟩

/-- Models Python `str` on an arbitrary integer. -/
def pyStrOfInt (i : Int) : String :=
  if i < 0 then "-" ++ natToStr i.toNat else natToStr i.toNat

/-- One parsed quote: the per-item dict `{"mua": ..., "ban": ...,
("khu_vuc": ...)}` built by the extractors; `Option` models `dict.get`
on possibly-missing keys. -/
structure ItemInfo where
  mua : Option String
  ban : Option String
  khuVuc : Option String
deriving DecidableEq

/-- The `field` argument of `_find_item_price` ("mua" / "ban"). -/
inductive Field
  | mua
  | ban
deriving DecidableEq

/-- `info.get(field)`. -/
def ItemInfo.get (info : ItemInfo) : Field → Option String
  | .mua => info.mua
  | .ban => info.ban

/-- One brand's insertion-ordered `{item_name: ItemInfo}` dict. -/
abbrev BrandData := List (String × ItemInfo)

/-- The top-level `data` dict: brand key → brand dict (possibly `None`). -/
abbrev GoldData := List (String × Option BrandData)

/-- The row loop of `_find_item_price` (lines 71-74): first quote whose
lower-cased name contains the lower-cased needle wins. -/
def findItemPriceLoop (nameContains : String) (field : Field) :
    BrandData → Option Int
  | [] => none
  | (loai, info) :: rest =>
    if pyIn (pyLower nameContains) (pyLower loai) then
      normalizePriceToVnd (info.get field)
    else findItemPriceLoop nameContains field rest

/-- Models `_find_item_price` (lines 58-74); `data.get(brand_key) or {}`
maps an absent key and a `None` value both to the empty dict. -/
def findItemPrice (data : GoldData) (brandKey nameContains : String)
    (field : Field) : Option Int :=
  let brandData := ((data.lookup brandKey).join).getD []
  findItemPriceLoop nameContains field brandData

/-- Python dict assignment `d[k] = v` on an insertion-ordered
association list: replace in place when the key exists, append otherwise. -/
def dictInsert (d : List (String × α)) (k : String) (v : α) :
    List (String × α) :=
  match d with
  | [] => [(k, v)]
  | (k', v') :: rest =>
    if k' = k then (k', v) :: rest else (k', v') :: dictInsert rest k v

/-! ### Tables and column classification -/

/-- One pandas row, as the mapping from column-header text to cell text
(cells read through `str(...)`, so every cell is a string; a pandas `NaN`
cell reads as `"nan"`). -/
abbrev Row := List (String × String)

/-- `str(row[col])`; in pandas a row always has every column of the
frame, so the default is never reached on the columns the code uses. -/
def rowGet (row : Row) (col : String) : String :=
  (row.lookup col).getD ""

/-- A pandas `DataFrame` as far as the code reads it: its column headers
in order, and its rows in order. -/
structure Table where
  headers : List String
  rows : List Row
deriving DecidableEq

/-- `df.columns = [str(c).strip() for c in df.columns]`: renaming the
columns also renames the keys under which rows are read. -/
def stripCols (t : Table) : Table :=
  ⟨t.headers.map pyStrip,
   t.rows.map (fun r => r.map (fun p => (pyStrip p.1, p.2)))⟩

/-- The canonical column roles (`col_map` keys). -/
inductive Role
  | loai
  | mua
  | ban
deriving DecidableEq

/-- The `col_map` dict: role → header text, each entry optional. -/
structure ColMapO where
  loai : Option String
  mua : Option String
  ban : Option String
deriving DecidableEq

/-- The role the DOJI header loop (lines 225-232) gives one label: the
`if/elif` chain tried on the lower-cased label. -/
def dojiLabelRole (col : String) : Option Role :=
  let lower := pyLower col
  if pyIn "loại" lower || pyIn "giá vàng trong nước" lower then some .loai
  else if pyIn "mua" lower then some .mua
  else if pyIn "bán" lower then some .ban
  else none

/-- One iteration of the DOJI header loop: `col_map[role] = col`
overwrites any earlier assignment of the same role. -/
def dojiClassifyStep (cm : ColMapO) (col : String) : ColMapO :=
  let lower := pyLower col
  if pyIn "loại" lower || pyIn "giá vàng trong nước" lower then
    { cm with loai := some col }
  else if pyIn "mua" lower then { cm with mua := some col }
  else if pyIn "bán" lower then { cm with ban := some col }
  else cm

/-- The DOJI `col_map` built over the (already stripped) headers. -/
def dojiColMap (headers : List String) : ColMapO :=
  headers.foldl dojiClassifyStep ⟨none, none, none⟩

/-- The role the BaoMoi header loop (lines 157-165) gives one label. -/
def baomoiLabelRole (col : String) : Option Role :=
  let lower := pyLower col
  if pyIn "loại" lower && pyIn "vàng" lower then some .loai
  else if pyIn "giá mua" lower || pyIn "mua" lower then some .mua
  else if pyIn "giá bán" lower || pyIn "bán" lower then some .ban
  else none

/-- One iteration of the BaoMoi header loop. -/
def baomoiClassifyStep (cm : ColMapO) (col : String) : ColMapO :=
  let lower := pyLower col
  if pyIn "loại" lower && pyIn "vàng" lower then { cm with loai := some col }
  else if pyIn "giá mua" lower || pyIn "mua" lower then
    { cm with mua := some col }
  else if pyIn "giá bán" lower || pyIn "bán" lower then
    { cm with ban := some col }
  else cm

/-- The BaoMoi `col_map` (`_parse_baomoi_gold_table`, lines 157-165). -/
def baomoiColMap (headers : List String) : ColMapO :=
  headers.foldl baomoiClassifyStep ⟨none, none, none⟩

/-! ### Row extraction -/

/-- Row filter shared by the extraction loops: drop a row whose stripped
item-name cell is empty or the `"nan"` placeholder. -/
def keepRow (cl : String) (row : Row) : Bool :=
  let loai := pyStrip (rowGet row cl)
  !(loai = "" || pyLower loai = "nan")

/-- The BaoMoi row loop (lines 171-180): build the result dict in row
order, keyed by the stripped item name. -/
def baomoiRowsToDict (rows : List Row) (cl cmua cban : String) : BrandData :=
  rows.foldl
    (fun acc row =>
      let loai := pyStrip (rowGet row cl)
      if loai = "" || pyLower loai = "nan" then acc
      else dictInsert acc loai
        ⟨some (pyStrip (rowGet row cmua)), some (pyStrip (rowGet row cban)), none⟩)
    []

/-- The DOJI row loop (lines 238-246): like BaoMoi's but with
`khu_vuc = "Trong nước"` on every item. -/
def dojiRowsToDict (rows : List Row) (cl cmua cban : String) : BrandData :=
  rows.foldl
    (fun acc row =>
      let loai := pyStrip (rowGet row cl)
      if loai = "" || pyLower loai = "nan" then acc
      else dictInsert acc loai
        ⟨some (pyStrip (rowGet row cmua)), some (pyStrip (rowGet row cban)),
         some "Trong nước"⟩)
    []

/-- `_sjc_rows_to_dict` (lines 280-290), over the three mapped columns. -/
def sjcRowsToDict (rows : List Row) (cl cmua cban : String) : BrandData :=
  rows.foldl
    (fun acc row =>
      let loai := pyStrip (rowGet row cl)
      if loai = "" || pyLower loai = "nan" then acc
      else dictInsert acc loai
        ⟨some (pyStrip (rowGet row cmua)), some (pyStrip (rowGet row cban)), none⟩)
    []

/-- Extraction as the spec's §4.4 words it: drop exactly the
empty/"nan"-named rows and emit every retained row, in order.  Stated
from the spec for comparison with the dict-building loops above. -/
def extractRowsSpec (rows : List Row) (cl cmua cban : String) : BrandData :=
  (rows.filter (keepRow cl)).map
    (fun row =>
      (pyStrip (rowGet row cl),
       ⟨some (pyStrip (rowGet row cmua)), some (pyStrip (rowGet row cban)), none⟩))

/-! ### Per-brand adapters -/

/-- Models `_parse_baomoi_gold_table` (lines 140-180) from the point the
external `pd.read_html` has produced `tables`.  The source's error text
interpolates `df.columns`; the model keeps the fixed message prefix. -/
def parseBaomoiGoldTable (tables : List Table) (sourceName : String) :
    Except String BrandData :=
  match tables with
  | [] => .error (sourceName ++ ": Không tìm thấy bảng dữ liệu nào")
  | df :: _ =>
    let t := stripCols df
    let cm := baomoiColMap t.headers
    match cm.loai, cm.mua, cm.ban with
    | some cl, some cmua, some cban => .ok (baomoiRowsToDict t.rows cl cmua cban)
    | _, _, _ => .error (sourceName ++ ": Không nhận diện được đủ cột")

/-- Does a table pass `_parse_baomoi_gold_table`'s "all required keys
mapped" test (applied there only to the first table)? -/
def baomoiQualifies (df : Table) : Bool :=
  let cm := baomoiColMap (stripCols df).headers
  cm.loai.isSome && cm.mua.isSome && cm.ban.isSome

/-- Extraction of the first table inside `_parse_baomoi_gold_table`,
when it qualifies. -/
def baomoiExtractTable (df : Table) : BrandData :=
  let t := stripCols df
  let cm := baomoiColMap t.headers
  match cm.loai, cm.mua, cm.ban with
  | some cl, some cmua, some cban => baomoiRowsToDict t.rows cl cmua cban
  | _, _, _ => []

/-- Does a table pass the DOJI loop's "all required keys mapped" test? -/
def dojiQualifies (df : Table) : Bool :=
  let cm := dojiColMap (stripCols df).headers
  cm.loai.isSome && cm.mua.isSome && cm.ban.isSome

/-- Extraction of one qualifying table inside the DOJI loop. -/
def dojiExtractTable (df : Table) : BrandData :=
  let t := stripCols df
  let cm := dojiColMap t.headers
  match cm.loai, cm.mua, cm.ban with
  | some cl, some cmua, some cban => dojiRowsToDict t.rows cl cmua cban
  | _, _, _ => []

/-- The `for df in tables` scan of `get_doji_prices` (lines 221-247). -/
def dojiScan : List Table → Option BrandData
  | [] => none
  | df :: rest =>
    if dojiQualifies df then some (dojiExtractTable df) else dojiScan rest

/-- Models `get_doji_prices` (lines 209-249) from the point
`pd.read_html` has produced `tables`. -/
def getDojiPrices (tables : List Table) : Except String BrandData :=
  if tables.isEmpty then .error "DOJI: Không tìm thấy bảng dữ liệu nào"
  else
    match dojiScan tables with
    | some bd => .ok bd
    | none =>
      .error ("DOJI: Đã duyệt " ++ natToStr tables.length
        ++ " bảng nhưng không khớp cột.")

/-- The joined lower-cased header string test inside
`_find_sjc_dataframe` (lines 252-260). -/
def sjcHeaderCheck (df : Table) : Bool :=
  let cols := df.headers.map pyLower
  let joined := pyJoin " " cols
  let hasLoai := pyIn "loại vàng" joined || pyIn "loại" joined
  let hasMuaBan := pyIn "mua" joined && pyIn "bán" joined
  hasLoai && hasMuaBan

/-- Models `_find_sjc_dataframe` (lines 252-260). -/
def findSjcDataframe : List Table → Except String Table
  | [] => .error "SJC: Không tìm được bảng giá phù hợp"
  | df :: rest =>
    if sjcHeaderCheck df then .ok df else findSjcDataframe rest

/-- Models `get_sjc_prices` (lines 293-314): parse the BaoMoi page's
first table, then copy each item's `mua`/`ban` into a fresh dict. -/
def getSjcPrices (tables : List Table) : Except String BrandData :=
  (parseBaomoiGoldTable tables "SJC (BaoMoi)").map
    (fun raw =>
      raw.foldl (fun acc p => dictInsert acc p.1 ⟨p.2.mua, p.2.ban, none⟩) [])

/-! ### Aggregation -/

/-- The `data` dict built by `get_all_gold_prices`: one optional entry
per brand key, plus the `"_errors"` list (that key is present in the
Python dict exactly when the list is non-empty). -/
structure AllPrices where
  pnj : Option BrandData
  doji : Option BrandData
  sjc : Option BrandData
  errors : List String
deriving DecidableEq

/-- Models `get_all_gold_prices` (lines 318-340); the three adapters'
network-dependent outcomes enter as `Except` values, each `try/except`
block becomes a match on its adapter's outcome. -/
def getAllGoldPrices (rPnj rDoji rSjc : Except String BrandData) : AllPrices :=
  let (pnjData, e1) :=
    match rPnj with
    | .ok d => (some d, ([] : List String))
    | .error e => (none, ["PNJ: " ++ e])
  let (dojiData, e2) :=
    match rDoji with
    | .ok d => (some d, ([] : List String))
    | .error e => (none, ["DOJI: " ++ e])
  let (sjcData, e3) :=
    match rSjc with
    | .ok d => (some d, ([] : List String))
    | .error e => (none, ["SJC: " ++ e])
  ⟨pnjData, dojiData, sjcData, e1 ++ e2 ++ e3⟩

/-! ### Trend computation and history snapshot -/

/-- The direction words of `_format_change`. -/
inductive Direction
  | tang
  | giam
  | dungGia
deriving DecidableEq

/-- The decision content of `_format_change`'s returned line: either the
"no comparison data" message or the direction, signed difference and
percentage it renders.  (The final float formatting of the percentage is
presentation only; the percentage itself is the exact rational.) -/
inductive ChangeResult
  | noData
  | change (direction : Direction) (diff : Int) (pct : ℚ)
deriving DecidableEq

/-- Models `_format_change` (lines 107-135). -/
def formatChange : Option Int → Option Int → ChangeResult
  | some c, some p =>
    if p = 0 then .noData
    else
      .change
        (if c - p > 0 then .tang else if c - p < 0 then .giam else .dungGia)
        (c - p) (((c - p : Int) : ℚ) / (p : ℚ) * 100)
  | _, _ => .noData

/-- The persisted snapshot built by `_build_history_snapshot`
(lines 87-98); the `_timestamp_utc` field is wall-clock I/O and stays
outside the pure model.  Only prices are stored — no item names. -/
structure HistorySnapshot where
  pnjHcmBan : Option Int
  dojiAvplBan : Option Int
  sjc1lBan : Option Int
deriving DecidableEq

/-- Models `_build_history_snapshot` (lines 87-98). -/
def buildHistorySnapshot (data : GoldData) : HistorySnapshot :=
  ⟨findItemPrice data "PNJ" "PNJ HCM" .ban,
   findItemPrice data "DOJI" "AVPL/SJC" .ban,
   findItemPrice data "SJC" "SJC 1L" .ban⟩

/-- Python truthiness of an optional integer (`None` and `0` falsy),
as used by `any([pnj_prev, doji_prev, sjc_prev])`. -/
def pyTruthy : Option Int → Bool
  | none => false
  | some n => n != 0

/-- The trend entries of `_append_change_section` (lines 511-545):
`none` models the early "first run, no comparison data" return; otherwise
the labelled `_format_change` results of the lines that are emitted (the
source function then goes on to append the per-brand sections). -/
def appendChangeEntries (data : GoldData) (history : HistorySnapshot) :
    Option (List (String × ChangeResult)) :=
  let pnjCurr := findItemPrice data "PNJ" "PNJ HCM" .ban
  let dojiCurr := findItemPrice data "DOJI" "AVPL/SJC" .ban
  let sjcCurr := findItemPrice data "SJC" "SJC 1L" .ban
  let pnjPrev := history.pnjHcmBan
  let dojiPrev := history.dojiAvplBan
  let sjcPrev := history.sjc1lBan
  if !(pyTruthy pnjPrev || pyTruthy dojiPrev || pyTruthy sjcPrev) then none
  else
    some
      ((if pnjCurr.isSome then
          [("PNJ HCM (Bán)", formatChange pnjCurr pnjPrev)] else [])
        ++ (if dojiCurr.isSome then
          [("DOJI AVPL/SJC (Bán)", formatChange dojiCurr dojiPrev)] else [])
        ++ (if sjcCurr.isSome then
          [("SJC 1L/10L/1KG (Bán)", formatChange sjcCurr sjcPrev)] else []))

/-- The identity linkage as the spec's §4.8 words it: exact `item_name`
equality against the current quotes first, then case-insensitive
substring containment of the prior name, first match wins.  Stated from
the spec for comparison with the code's lookup. -/
def trendLookupSpec (quotes : BrandData) (priorName : String)
    (field : Field) : Option Int :=
  match quotes.find? (fun q => q.1 = priorName) with
  | some q => normalizePriceToVnd (q.2.get field)
  | none =>
    match quotes.find? (fun q => pyIn (pyLower priorName) (pyLower q.1)) with
    | some q => normalizePriceToVnd (q.2.get field)
    | none => none

/-! ### Sample inputs -/

/-- A table that maps no role (an ad/currency table). -/
def tCurrency : Table := ⟨["Currency", "USD"], []⟩

/-- A table whose headers map all three required roles. -/
def tGold : Table :=
  ⟨["Loại vàng", "Giá mua (VNĐ)", "Giá bán (VNĐ)"],
   [[("Loại vàng", "Vàng SJC 1L"), ("Giá mua (VNĐ)", "74000"),
     ("Giá bán (VNĐ)", "75000")]]⟩

/-- Current quotes containing both a name that merely contains
`"SJC 1L"` (earlier) and the exact name `"SJC 1L"` (later). -/
def sampleQuotes : BrandData :=
  [("XSJC 1LX", ⟨some "2", some "2", none⟩),
   ("SJC 1L", ⟨some "3", some "3", none⟩)]

/-- A data mapping holding `sampleQuotes` under the SJC brand. -/
def sampleData : GoldData := [("SJC", some sampleQuotes)]

/-- A history snapshot with only the SJC price present. -/
def sampleHistory : HistorySnapshot := ⟨none, none, some 1000⟩

/-- Two retained rows sharing the same item name. -/
def sampleDupRows : List Row :=
  [[("L", "A"), ("M", "1"), ("B", "2")],
   [("L", "A"), ("M", "3"), ("B", "4")]]

/-- Two retained rows with distinct item names. -/
def sampleDistinctRows : List Row :=
  [[("L", "X"), ("M", "1"), ("B", "2")],
   [("L", "Y"), ("M", "3"), ("B", "4")]]

/-! ### Helper lemmas -/

theorem digitChar_isDigit (d : Nat) (h : d < 10) :
    (Char.ofNat (48 + d)).isDigit = true := by
  interval_cases d <;> decide

theorem digitChar_toNat (d : Nat) (h : d < 10) :
    (Char.ofNat (48 + d)).toNat = 48 + d := by
  interval_cases d <;> decide

theorem natOfDigits_append_one (l : List Char) (c : Char) :
    natOfDigits (l ++ [c]) = 10 * natOfDigits l + (c.toNat - 48) := by
  simp [natOfDigits, List.foldl_append]

theorem natToStrAux_spec (fuel : Nat) :
    ∀ n, n < fuel →
      (∀ c ∈ natToStrAux fuel n, c.isDigit = true) ∧
      natOfDigits (natToStrAux fuel n) = n ∧
      n < 10 ^ (natToStrAux fuel n).length := by
  induction fuel with
  | zero => intro n hn; omega
  | succ f ih =>
    intro n hn
    by_cases h10 : n < 10
    · refine ⟨?_, ?_, ?_⟩
      · intro c hc
        simp only [natToStrAux, if_pos h10, List.mem_singleton] at hc
        subst hc
        exact digitChar_isDigit n h10
      · simp only [natToStrAux, if_pos h10, natOfDigits, List.foldl]
        rw [digitChar_toNat n h10]
        omega
      · simp only [natToStrAux, if_pos h10, List.length_singleton]
        omega
    · have hdiv : n / 10 < f := by omega
      obtain ⟨ihd, ihv, ihl⟩ := ih (n / 10) hdiv
      have hmod : n % 10 < 10 := Nat.mod_lt n (by omega)
      refine ⟨?_, ?_, ?_⟩
      · intro c hc
        simp only [natToStrAux, if_neg h10, List.mem_append,
          List.mem_singleton] at hc
        rcases hc with hc | hc
        · exact ihd c hc
        · subst hc; exact digitChar_isDigit _ hmod
      · simp only [natToStrAux, if_neg h10]
        rw [natOfDigits_append_one, ihv, digitChar_toNat _ hmod]
        omega
      · simp only [natToStrAux, if_neg h10, List.length_append,
          List.length_singleton]
        have hp : 10 ^ ((natToStrAux f (n / 10)).length + 1) =
            10 * 10 ^ (natToStrAux f (n / 10)).length := by
          rw [pow_succ]; ring
        rw [hp]
        omega

theorem natToStr_digits (m : Nat) :
    (∀ c ∈ (natToStr m).data, c.isDigit = true) ∧
    natOfDigits (natToStr m).data = m ∧
    m < 10 ^ (natToStr m).data.length := by
  have h := natToStrAux_spec (m + 1) m (by omega)
  exact h

/-! ### Claim C2 -/

/-- Claim C2: `_normalize_price_to_vnd` strips all non-digit characters
and returns `none` when no digits remain (it is total, hence never
raises); on a non-empty all-digit string it returns the parsed value
times 1000 when there are at most 6 digits, and the parsed value itself
when there are more than 6 digits. -/
theorem normalize_price_contract :
    normalizePriceToVnd none = none ∧
    (∀ s : String,
      (normalizePriceToVnd (some s) = none ↔
        s.data.filter Char.isDigit = [])) ∧
    (∀ l : List Char, (∀ c ∈ l, c.isDigit = true) → l ≠ [] →
      l.length ≤ 6 →
      normalizePriceToVnd (some (String.mk l)) =
        some ((natOfDigits l : Int) * 1000)) ∧
    (∀ l : List Char, (∀ c ∈ l, c.isDigit = true) → 6 < l.length →
      normalizePriceToVnd (some (String.mk l)) =
        some ((natOfDigits l : Int))) := by
  refine ⟨rfl, fun s => ?_, fun l hdig hne hlen => ?_,
    fun l hdig hlen => ?_⟩
  · simp only [normalizePriceToVnd]
    cases hd : s.data.filter Char.isDigit with
    | nil => simp
    | cons a as =>
      simp only [List.isEmpty_cons, Bool.false_eq_true, if_false]
      split <;> simp
  · have hf : l.filter Char.isDigit = l := List.filter_eq_self.mpr hdig
    simp only [normalizePriceToVnd]
    rw [hf]
    cases l with
    | nil => exact absurd rfl hne
    | cons a as =>
      simp only [List.isEmpty_cons, Bool.false_eq_true, if_false]
      rw [if_pos hlen]
  · have hf : l.filter Char.isDigit = l := List.filter_eq_self.mpr hdig
    have hne : l ≠ [] := by
      rintro rfl; simp at hlen
    simp only [normalizePriceToVnd]
    rw [hf]
    cases l with
    | nil => exact absurd rfl hne
    | cons a as =>
      simp only [List.isEmpty_cons, Bool.false_eq_true, if_false]
      rw [if_neg (by omega)]

/-- Witness for C2: the short-form digit string `"15280"` normalizes to
`15280 * 1000 = 15280000`. -/
theorem normalize_price_contract_witness :
    normalizePriceToVnd (some (String.mk ['1', '5', '2', '8', '0'])) =
      some ((natOfDigits ['1', '5', '2', '8', '0'] : Int) * 1000) ∧
    normalizePriceToVnd (some "15280") = some 15280000 :=
  ⟨normalize_price_contract.2.2.1 ['1', '5', '2', '8', '0']
      (by decide) (by decide) (by decide),
   by decide⟩

/-! ### Claim C8 -/

/-- Claim C8 counterexample: `"0000001"` has 7 (> 6) digits, so it
normalizes as-is to `1`; but `str(1) = "1"` has one digit, so
re-normalizing multiplies by 1000: the claimed idempotence
`normalize(str(normalize(x))) = normalize(x)` fails at `x = "0000001"`. -/
theorem normalize_roundtrip_cex :
    6 < (("0000001" : String).data.filter Char.isDigit).length ∧
    normalizePriceToVnd (some "0000001") = some 1 ∧
    pyStrOfInt 1 = "1" ∧
    normalizePriceToVnd (some (pyStrOfInt 1)) = some 1000 ∧
    some (1000 : Int) ≠ some (1 : Int) := by
  decide

/-- Claim C8 (amended): for every input whose stripped digit string has
more than 6 digits **and parses to at least 10^6** (i.e. carries no
leading zeros that collapse under `int`), normalization is idempotent
through its own string rendering. -/
theorem normalize_roundtrip_amended (s : String)
    (h6 : 6 < (s.data.filter Char.isDigit).length)
    (hge : 1000000 ≤ natOfDigits (s.data.filter Char.isDigit)) :
    ∃ n : Int, normalizePriceToVnd (some s) = some n ∧ 0 ≤ n ∧
      normalizePriceToVnd (some (pyStrOfInt n)) = some n := by
  have hne : s.data.filter Char.isDigit ≠ [] := by
    intro h; rw [h] at h6; simp at h6
  refine ⟨natOfDigits (s.data.filter Char.isDigit), ?_,
    Int.natCast_nonneg _, ?_⟩
  · simp only [normalizePriceToVnd]
    cases hd : s.data.filter Char.isDigit with
    | nil => exact absurd hd hne
    | cons a as =>
      rw [hd] at h6
      simp only [List.isEmpty_cons, Bool.false_eq_true, if_false]
      rw [if_neg (by omega)]
  · set m := natOfDigits (s.data.filter Char.isDigit) with hm
    have hstr : pyStrOfInt (m : Int) = natToStr m := by
      simp only [pyStrOfInt]
      rw [if_neg (not_lt.mpr (Int.natCast_nonneg m))]
      simp
    rw [hstr]
    obtain ⟨hdig, hval, hlen⟩ := natToStr_digits m
    have hf : (natToStr m).data.filter Char.isDigit = (natToStr m).data :=
      List.filter_eq_self.mpr hdig
    have hlen7 : 6 < (natToStr m).data.length := by
      by_contra hc
      have : (10 : Nat) ^ (natToStr m).data.length ≤ 10 ^ 6 :=
        Nat.pow_le_pow_right (by omega) (by omega)
      omega
    have hne2 : (natToStr m).data ≠ [] := by
      intro h; rw [h] at hlen7; simp at hlen7
    simp only [normalizePriceToVnd]
    cases hd : (natToStr m).data with
    | nil => exact absurd hd hne2
    | cons a as =>
      rw [hd] at hf hval hlen7
      rw [hf]
      simp only [List.isEmpty_cons, Bool.false_eq_true, if_false]
      rw [if_neg (by omega), hval]

/-- Witness for C8 (amended): applied at the 7-digit input `"1234567"`. -/
theorem normalize_roundtrip_amended_witness :
    ∃ n : Int, normalizePriceToVnd (some "1234567") = some n ∧ 0 ≤ n ∧
      normalizePriceToVnd (some (pyStrOfInt n)) = some n :=
  normalize_roundtrip_amended "1234567" (by decide) (by decide)

/-! ### Claim C7 -/

/-- Claim C7: `_format_change` reports "no comparison data" exactly when
a required price is missing or the previous price is zero; otherwise it
computes `diff = current - previous`, derives the direction solely from
the sign of `diff`, and reports the percentage `diff / previous * 100`. -/
theorem format_change_contract :
    ∀ c p : Option Int,
      (formatChange c p = .noData ↔ c = none ∨ p = none ∨ p = some 0) ∧
      (∀ cv pv : Int, c = some cv → p = some pv → pv ≠ 0 →
        ∃ d : Direction,
          formatChange c p =
            .change d (cv - pv) (((cv - pv : Int) : ℚ) / (pv : ℚ) * 100) ∧
          (d = .tang ↔ 0 < cv - pv) ∧
          (d = .giam ↔ cv - pv < 0) ∧
          (d = .dungGia ↔ cv - pv = 0)) := by
  intro c p
  constructor
  · match c, p with
    | none, none => simp [formatChange]
    | none, some pv => simp [formatChange]
    | some cv, none => simp [formatChange]
    | some cv, some pv =>
      simp only [formatChange]
      by_cases hp : pv = 0
      · simp [hp]
      · rw [if_neg hp]
        simp [hp]
  · rintro cv pv rfl rfl hp
    simp only [formatChange, if_neg hp]
    by_cases h1 : cv - pv > 0
    · exact ⟨.tang, by rw [if_pos h1], by simp [h1],
        by simp; omega, by simp; omega⟩
    · by_cases h2 : cv - pv < 0
      · exact ⟨.giam, by rw [if_neg h1, if_pos h2], by simp; omega,
          by simp [h2], by simp; omega⟩
      · exact ⟨.dungGia, by rw [if_neg h1, if_neg h2], by simp; omega,
          by simp; omega, by simp; omega⟩

/-- Witness for C7: current 110, previous 100 gives an increase of 10,
which is 10 percent. -/
theorem format_change_contract_witness :
    formatChange (some 110) (some 100) =
      ChangeResult.change Direction.tang 10 10 := by
  obtain ⟨d, hd, ht, _, _⟩ :=
    (format_change_contract (some 110) (some 100)).2 110 100 rfl rfl
      (by decide)
  have : d = Direction.tang := ht.mpr (by decide)
  subst this
  rw [hd]
  norm_num

/-! ### Claim C10 -/

/-- The loop of `_find_item_price` returns the normalized field of the
first quote whose lower-cased name contains the lower-cased needle. -/
theorem findItemPriceLoop_eq_find (nameContains : String) (field : Field) :
    ∀ bd : BrandData,
      findItemPriceLoop nameContains field bd =
        (bd.find? (fun q => pyIn (pyLower nameContains) (pyLower q.1))).bind
          (fun q => normalizePriceToVnd (q.2.get field)) := by
  intro bd
  induction bd with
  | nil => rfl
  | cons q rest ih =>
    obtain ⟨loai, info⟩ := q
    by_cases h : pyIn (pyLower nameContains) (pyLower loai)
    · simp [findItemPriceLoop, List.find?_cons, h]
    · simp only [findItemPriceLoop]
      rw [if_neg h, ih, List.find?_cons]
      simp only [h]

/-- Claim C10: `_find_item_price` returns the normalized price of the
first quote (in insertion order) whose item name contains the search
substring case-insensitively; it returns `none` (and, being total,
never raises) when the brand key is absent, when the brand's value is
null, and when no item name contains the substring. -/
theorem find_item_price_contract :
    ∀ (data : GoldData) (brandKey sub : String) (field : Field),
      findItemPrice data brandKey sub field =
        ((((data.lookup brandKey).join).getD []).find?
          (fun q => pyIn (pyLower sub) (pyLower q.1))).bind
          (fun q => normalizePriceToVnd (q.2.get field)) ∧
      (data.lookup brandKey = none →
        findItemPrice data brandKey sub field = none) ∧
      (data.lookup brandKey = some none →
        findItemPrice data brandKey sub field = none) ∧
      ((((data.lookup brandKey).join).getD []).find?
          (fun q => pyIn (pyLower sub) (pyLower q.1)) = none →
        findItemPrice data brandKey sub field = none) := by
  intro data brandKey sub field
  have hmain := findItemPriceLoop_eq_find sub field
    (((data.lookup brandKey).join).getD [])
  refine ⟨hmain, ?_, ?_, ?_⟩
  · intro h
    simp only [findItemPrice, h, Option.join, Option.getD]
    rfl
  · intro h
    simp only [findItemPrice, h, Option.join, Option.getD]
    rfl
  · intro h
    rw [show findItemPrice data brandKey sub field =
      findItemPriceLoop sub field (((data.lookup brandKey).join).getD [])
      from rfl, hmain, h]
    rfl

/-- Witness for C10: an absent brand key, a null brand value, and a
search substring contained in no item name all yield `none`; a contained
substring yields the first match's normalized price. -/
theorem find_item_price_contract_witness :
    findItemPrice sampleData "PNJ" "PNJ HCM" Field.ban = none ∧
    findItemPrice [("PNJ", none)] "PNJ" "PNJ HCM" Field.ban = none ∧
    findItemPrice sampleData "SJC" "9999" Field.ban = none ∧
    findItemPrice sampleData "SJC" "sjc 1l" Field.ban = some 2000 :=
  ⟨(find_item_price_contract sampleData "PNJ" "PNJ HCM" Field.ban).2.1
      (by decide),
   (find_item_price_contract [("PNJ", none)] "PNJ" "PNJ HCM"
      Field.ban).2.2.1 (by decide),
   (find_item_price_contract sampleData "SJC" "9999" Field.ban).2.2.2
      (by decide),
   by decide⟩

/-! ### Claim C4 -/

/-- Claim C4: `get_all_gold_prices` consults all three adapters
unconditionally — each brand's entry in the report depends only on its
own adapter's outcome, so one adapter's exception never suppresses the
other brands' data — and a run with exactly one adapter raising yields
the two successful brands' data plus exactly one error diagnostic. -/
theorem aggregation_isolation :
    ∀ rPnj rDoji rSjc : Except String BrandData,
      ((getAllGoldPrices rPnj rDoji rSjc).pnj = rPnj.toOption ∧
       (getAllGoldPrices rPnj rDoji rSjc).doji = rDoji.toOption ∧
       (getAllGoldPrices rPnj rDoji rSjc).sjc = rSjc.toOption) ∧
      (∀ (e : String) (d1 d2 : BrandData),
        getAllGoldPrices (.error e) (.ok d1) (.ok d2) =
          ⟨none, some d1, some d2, ["PNJ: " ++ e]⟩ ∧
        getAllGoldPrices (.ok d1) (.error e) (.ok d2) =
          ⟨some d1, none, some d2, ["DOJI: " ++ e]⟩ ∧
        getAllGoldPrices (.ok d1) (.ok d2) (.error e) =
          ⟨some d1, some d2, none, ["SJC: " ++ e]⟩) := by
  intro rPnj rDoji rSjc
  constructor
  · cases rPnj <;> cases rDoji <;> cases rSjc <;>
      simp [getAllGoldPrices, Except.toOption]
  · intro e d1 d2
    refine ⟨?_, ?_, ?_⟩ <;> simp [getAllGoldPrices]

/-! ### Claim C3 -/

/-- The DOJI table scan returns the extraction of the first qualifying
candidate, in original order. -/
theorem dojiScan_eq_find :
    ∀ tables : List Table,
      dojiScan tables = (tables.find? dojiQualifies).map dojiExtractTable := by
  intro tables
  induction tables with
  | nil => rfl
  | cons df rest ih =>
    by_cases h : dojiQualifies df
    · simp [dojiScan, List.find?_cons, h]
    · simp only [dojiScan]
      rw [if_neg h, ih, List.find?_cons]
      simp only [h]

/-- The DOJI adapter scans the candidate tables in their original order
and succeeds with (the extraction of) the first table whose headers
cover all three required roles; on an empty candidate list, or when no
candidate qualifies, it fails with an error. -/
theorem doji_table_selection :
    ∀ tables : List Table,
      (∀ df, tables.find? dojiQualifies = some df →
        getDojiPrices tables = .ok (dojiExtractTable df)) ∧
      (tables.find? dojiQualifies = none →
        getDojiPrices tables =
          .error (if tables.isEmpty then
              "DOJI: Không tìm thấy bảng dữ liệu nào"
            else "DOJI: Đã duyệt " ++ natToStr tables.length
              ++ " bảng nhưng không khớp cột.")) := by
  intro tables
  constructor
  · intro df h
    cases tables with
    | nil => simp at h
    | cons t rest =>
      simp only [getDojiPrices, List.isEmpty_cons, Bool.false_eq_true,
        if_false]
      rw [dojiScan_eq_find, h]
      rfl
  · intro h
    cases tables with
    | nil => rfl
    | cons t rest =>
      simp only [getDojiPrices, List.isEmpty_cons, Bool.false_eq_true,
        if_false]
      rw [dojiScan_eq_find, h]
      rfl

/-- Over `[tCurrency, tGold]`, where only `tGold` maps all required
roles, the DOJI scan returns `tGold`'s extraction; over `[]` and over
`[tCurrency]` it returns errors. -/
theorem doji_table_selection_sample :
    getDojiPrices [tCurrency, tGold] = .ok (dojiExtractTable tGold) ∧
    getDojiPrices [] =
      .error "DOJI: Không tìm thấy bảng dữ liệu nào" ∧
    getDojiPrices [tCurrency] =
      .error ("DOJI: Đã duyệt " ++ natToStr 1
        ++ " bảng nhưng không khớp cột.") :=
  ⟨(doji_table_selection [tCurrency, tGold]).1 tGold (by decide),
   by simpa using (doji_table_selection []).2 (by decide),
   by simpa using (doji_table_selection [tCurrency]).2 (by decide)⟩

/-- Claim C3 counterexample: `tGold` qualifies (its headers map all
three required roles) and is the first qualifying candidate of
`[tCurrency, tGold]`, yet `_parse_baomoi_gold_table` — the claim's
second cited selection site — performs no scan: it takes `tables[0]`
unconditionally and fails with the column error instead of returning
the qualifying table's extraction. -/
theorem baomoi_first_table_cex :
    baomoiQualifies tCurrency = false ∧
    baomoiQualifies tGold = true ∧
    List.find? baomoiQualifies [tCurrency, tGold] = some tGold ∧
    parseBaomoiGoldTable [tCurrency, tGold] "PNJ (BaoMoi)" =
      .error "PNJ (BaoMoi): Không nhận diện được đủ cột" := by
  refine ⟨by decide, by decide, by decide, ?_⟩
  rfl

/-- Claim C3 (amended): only the DOJI adapter scans the candidates in
their original order and returns (the extraction of) the first table
whose headers cover every required role, failing with an error on an
empty list or when no candidate qualifies; the BaoMoi parser used by the
PNJ and SJC adapters instead consults only the first candidate table —
it extracts it when it qualifies and fails otherwise, even when a later
candidate qualifies — and fails on an empty list. -/
theorem table_selection_amended :
    ∀ tables : List Table,
      ((∀ df, tables.find? dojiQualifies = some df →
          getDojiPrices tables = .ok (dojiExtractTable df)) ∧
        (tables.find? dojiQualifies = none →
          getDojiPrices tables =
            .error (if tables.isEmpty then
                "DOJI: Không tìm thấy bảng dữ liệu nào"
              else "DOJI: Đã duyệt " ++ natToStr tables.length
                ++ " bảng nhưng không khớp cột."))) ∧
      (∀ sourceName : String,
        (tables = [] → parseBaomoiGoldTable tables sourceName =
          .error (sourceName ++ ": Không tìm thấy bảng dữ liệu nào")) ∧
        (∀ t rest, tables = t :: rest →
          parseBaomoiGoldTable tables sourceName =
            (if baomoiQualifies t then .ok (baomoiExtractTable t)
             else .error
               (sourceName ++ ": Không nhận diện được đủ cột")))) := by
  intro tables
  refine ⟨doji_table_selection tables, fun sourceName => ⟨?_, ?_⟩⟩
  · rintro rfl
    rfl
  · rintro t rest rfl
    simp only [parseBaomoiGoldTable, baomoiQualifies, baomoiExtractTable]
    cases hl : (baomoiColMap (stripCols t).headers).loai with
    | none => simp [hl]
    | some cl =>
      cases hm : (baomoiColMap (stripCols t).headers).mua with
      | none => simp [hl, hm]
      | some cmua =>
        cases hb : (baomoiColMap (stripCols t).headers).ban with
        | none => simp [hl, hm, hb]
        | some cban => simp [hl, hm, hb]

/-- Witness for C3 (amended): the DOJI scan reaches the second,
qualifying table; the BaoMoi parser extracts a qualifying first table
and errors on the empty list. -/
theorem table_selection_amended_witness :
    getDojiPrices [tCurrency, tGold] = .ok (dojiExtractTable tGold) ∧
    parseBaomoiGoldTable [tGold, tCurrency] "PNJ (BaoMoi)" =
      .ok (baomoiExtractTable tGold) ∧
    parseBaomoiGoldTable [] "PNJ (BaoMoi)" =
      .error ("PNJ (BaoMoi)" ++ ": Không tìm thấy bảng dữ liệu nào") := by
  refine ⟨(table_selection_amended [tCurrency, tGold]).1.1 tGold
      (by decide), ?_,
    ((table_selection_amended []).2 "PNJ (BaoMoi)").1 rfl⟩
  have h := ((table_selection_amended [tGold, tCurrency]).2
    "PNJ (BaoMoi)").2 tGold [tCurrency] rfl
  rw [h, if_pos (show baomoiQualifies tGold = true from by decide)]

/-! ### Claim C9 -/

/-- Claim C9 counterexample: the secondary lexical check would reject
the leading ad/currency table and accept the second table
(`_find_sjc_dataframe` returns `tGold`), yet the live SJC path
`get_sjc_prices` performs no such per-candidate check: it processes only
the first table and fails outright, so the failing candidate is not
rejected in favour of the qualifying one. -/
theorem sjc_lexical_check_cex :
    sjcHeaderCheck tCurrency = false ∧
    sjcHeaderCheck tGold = true ∧
    findSjcDataframe [tCurrency, tGold] = .ok tGold ∧
    getSjcPrices [tCurrency, tGold] =
      .error "SJC (BaoMoi): Không nhận diện được đủ cột" := by
  refine ⟨by decide, by decide, ?_, ?_⟩ <;> rfl

/-- Claim C9 (amended): the secondary lexical check (joined lower-cased
headers must contain the item keyword and both the buy and sell
keywords) exists only in the helper `_find_sjc_dataframe`, which scans
candidates in order and rejects the ones failing the check; the live SJC
path `get_sjc_prices` never invokes it — its result depends only on the
first candidate table. -/
theorem sjc_lexical_check_amended :
    ∀ tables : List Table,
      (∀ df, tables.find? sjcHeaderCheck = some df →
        findSjcDataframe tables = .ok df) ∧
      (tables.find? sjcHeaderCheck = none →
        findSjcDataframe tables =
          .error "SJC: Không tìm được bảng giá phù hợp") ∧
      (∀ t rest rest', getSjcPrices (t :: rest) =
        getSjcPrices (t :: rest')) := by
  intro tables
  refine ⟨?_, ?_, fun t rest rest' => rfl⟩
  · intro df h
    induction tables with
    | nil => simp at h
    | cons t rest ih =>
      by_cases hc : sjcHeaderCheck t
      · rw [List.find?_cons_of_pos _ hc] at h
        cases h
        simp [findSjcDataframe, hc]
      · rw [List.find?_cons_of_neg _ hc] at h
        simp only [findSjcDataframe]
        rw [if_neg hc]
        exact ih h
  · intro h
    induction tables with
    | nil => rfl
    | cons t rest ih =>
      by_cases hc : sjcHeaderCheck t
      · rw [List.find?_cons_of_pos _ hc] at h
        cases h
      · rw [List.find?_cons_of_neg _ hc] at h
        simp only [findSjcDataframe]
        rw [if_neg hc]
        exact ih h

/-- Witness for C9 (amended): the helper finds `tGold` behind the
failing `tCurrency`, and `get_sjc_prices` ignores everything past the
first table. -/
theorem sjc_lexical_check_amended_witness :
    findSjcDataframe [tCurrency, tGold] = .ok tGold ∧
    getSjcPrices [tGold] = getSjcPrices [tGold, tCurrency] :=
  ⟨(sjc_lexical_check_amended [tCurrency, tGold]).1 tGold (by decide),
   ((sjc_lexical_check_amended []).2.2 tGold [] [tCurrency])⟩

/-! ### Claim C5 -/

theorem dictInsert_of_not_mem (k : String) (v : α) :
    ∀ d : List (String × α), k ∉ d.map Prod.fst →
      dictInsert d k v = d ++ [(k, v)] := by
  intro d
  induction d with
  | nil => intro _; rfl
  | cons p rest ih =>
    intro h
    obtain ⟨k', v'⟩ := p
    simp only [List.map_cons, List.mem_cons] at h
    push_neg at h
    simp only [dictInsert]
    rw [if_neg (fun hk => h.1 hk.symm), ih h.2]
    rfl

/-- The dict-building extraction loop, run from any accumulator whose
keys avoid the retained rows' (pairwise distinct) item names, appends
exactly the retained rows in order. -/
theorem sjc_fold_extract (cl cmua cban : String) :
    ∀ (rows : List Row) (acc : BrandData),
      ((rows.filter (keepRow cl)).map
        (fun r => pyStrip (rowGet r cl))).Nodup →
      (∀ k ∈ acc.map Prod.fst,
        k ∉ (rows.filter (keepRow cl)).map
          (fun r => pyStrip (rowGet r cl))) →
      rows.foldl
        (fun acc row =>
          let loai := pyStrip (rowGet row cl)
          if loai = "" || pyLower loai = "nan" then acc
          else dictInsert acc loai
            ⟨some (pyStrip (rowGet row cmua)),
             some (pyStrip (rowGet row cban)), none⟩) acc
      = acc ++ extractRowsSpec rows cl cmua cban := by
  intro rows
  induction rows with
  | nil => intro acc _ _; simp [extractRowsSpec]
  | cons row rest ih =>
    intro acc hnd hdisj
    by_cases hc : (pyStrip (rowGet row cl) = ""
        || pyLower (pyStrip (rowGet row cl)) = "nan") = true
    · have hkeep : keepRow cl row = false := by
        simp only [keepRow, hc, Bool.not_true]
      have hfe : (row :: rest).filter (keepRow cl) =
          rest.filter (keepRow cl) := by
        simp [List.filter_cons, hkeep]
      rw [hfe] at hnd hdisj
      simp only [List.foldl_cons]
      rw [show (if pyStrip (rowGet row cl) = ""
            || pyLower (pyStrip (rowGet row cl)) = "nan" then acc
          else dictInsert acc (pyStrip (rowGet row cl))
            ⟨some (pyStrip (rowGet row cmua)),
             some (pyStrip (rowGet row cban)), none⟩) = acc
        from by rw [if_pos hc]]
      rw [ih acc hnd hdisj]
      have : extractRowsSpec (row :: rest) cl cmua cban =
          extractRowsSpec rest cl cmua cban := by
        simp [extractRowsSpec, hfe]
      rw [this]
    · have hkeep : keepRow cl row = true := by
        simp only [keepRow]
        rw [Bool.not_eq_true']
        exact Bool.of_not_eq_true hc
      have hfe : (row :: rest).filter (keepRow cl) =
          row :: rest.filter (keepRow cl) := by
        simp [List.filter_cons, hkeep]
      rw [hfe] at hnd hdisj
      simp only [List.map_cons, List.nodup_cons] at hnd
      obtain ⟨hname, hnd'⟩ := hnd
      have hnotacc : pyStrip (rowGet row cl) ∉ acc.map Prod.fst := by
        intro hmem
        exact (hdisj _ hmem) (by simp)
      simp only [List.foldl_cons]
      rw [show (if pyStrip (rowGet row cl) = ""
            || pyLower (pyStrip (rowGet row cl)) = "nan" then acc
          else dictInsert acc (pyStrip (rowGet row cl))
            ⟨some (pyStrip (rowGet row cmua)),
             some (pyStrip (rowGet row cban)), none⟩)
          = dictInsert acc (pyStrip (rowGet row cl))
            ⟨some (pyStrip (rowGet row cmua)),
             some (pyStrip (rowGet row cban)), none⟩
        from by rw [if_neg hc]]
      rw [dictInsert_of_not_mem _ _ _ hnotacc]
      rw [ih _ hnd' ?_]
      · have : extractRowsSpec (row :: rest) cl cmua cban =
            (pyStrip (rowGet row cl),
              ⟨some (pyStrip (rowGet row cmua)),
               some (pyStrip (rowGet row cban)), none⟩)
            :: extractRowsSpec rest cl cmua cban := by
          simp [extractRowsSpec, hfe]
        rw [this, List.append_assoc]
        rfl
      · intro k hk
        simp only [List.map_append, List.mem_append, List.map_cons,
          List.mem_singleton] at hk
        rcases hk with hk | hk
        · intro hmem
          exact (hdisj k hk) (by simp [hmem])
        · simp only [List.map_nil, List.mem_cons, List.not_mem_nil,
            or_false] at hk
          rw [hk]
          exact hname

/-- Claim C5 counterexample: both rows of `sampleDupRows` pass the
item-name filter, yet the extraction dict keeps only one entry — the
earlier row's prices are overwritten because the output is keyed by
item name — so a retained row is lost for a reason other than the
empty/"nan" filter, contradicting the claim. -/
theorem extraction_order_cex :
    sampleDupRows.filter (keepRow "L") = sampleDupRows ∧
    sjcRowsToDict sampleDupRows "L" "M" "B" =
      [("A", ⟨some "3", some "4", none⟩)] ∧
    extractRowsSpec sampleDupRows "L" "M" "B" =
      [("A", ⟨some "1", some "2", none⟩),
       ("A", ⟨some "3", some "4", none⟩)] ∧
    sjcRowsToDict sampleDupRows "L" "M" "B" ≠
      extractRowsSpec sampleDupRows "L" "M" "B" := by
  decide

/-- Claim C5 (amended): provided the retained rows' item names are
pairwise distinct, record extraction drops exactly the rows whose
item-name cell is empty or `"nan"` and emits the retained rows in input
order with none duplicated or dropped; when retained rows share an item
name the output keeps a single entry at the first occurrence's position
holding the last such row's prices. -/
theorem extraction_order_amended :
    ∀ (rows : List Row) (cl cmua cban : String),
      ((rows.filter (keepRow cl)).map
        (fun r => pyStrip (rowGet r cl))).Nodup →
      sjcRowsToDict rows cl cmua cban =
        extractRowsSpec rows cl cmua cban ∧
      baomoiRowsToDict rows cl cmua cban =
        extractRowsSpec rows cl cmua cban := by
  intro rows cl cmua cban hnd
  have h := sjc_fold_extract cl cmua cban rows [] hnd (by simp)
  constructor
  · exact h
  · exact h

/-- Witness for C5 (amended): two retained rows with distinct names are
extracted in order. -/
theorem extraction_order_amended_witness :
    sjcRowsToDict sampleDistinctRows "L" "M" "B" =
      extractRowsSpec sampleDistinctRows "L" "M" "B" :=
  (extraction_order_amended sampleDistinctRows "L" "M" "B" (by decide)).1

/-! ### Claim C6 -/

theorem getLast?_cons_or (h : α) (l : List α) :
    (h :: l).getLast? = l.getLast?.or (some h) := by
  cases l with
  | nil => rfl
  | cons x xs =>
    rw [List.getLast?_cons_cons]
    have hs : ((x :: xs).getLast?).isSome := by
      rw [List.getLast?_isSome]
      simp
    obtain ⟨y, hy⟩ := Option.isSome_iff_exists.mp hs
    rw [hy]
    rfl

/-- Any header-classification loop whose per-label update overwrites a
role's entry assigns each role the **last** matching label. -/
theorem classify_fold_last (labelRole : String → Option Role)
    (step : ColMapO → String → ColMapO) (g : ColMapO → Option String)
    (r : Role)
    (hstep : ∀ cm h, g (step cm h) =
      if labelRole h = some r then some h else g cm) :
    ∀ (hs : List String) (cm : ColMapO),
      g (hs.foldl step cm) =
        ((hs.filter (fun h => labelRole h == some r)).getLast?).or (g cm) := by
  intro hs
  induction hs with
  | nil => intro cm; rfl
  | cons h t ih =>
    intro cm
    rw [List.foldl_cons, ih (step cm h), hstep cm h, List.filter_cons]
    by_cases hr : labelRole h = some r
    · rw [if_pos hr, if_pos (by simp [hr]), getLast?_cons_or,
        Option.or_assoc]
      rfl
    · rw [if_neg hr, if_neg (by simp [hr])]

theorem dojiStep_fields (cm : ColMapO) (h : String) :
    (dojiClassifyStep cm h).loai =
      (if dojiLabelRole h = some Role.loai then some h else cm.loai) ∧
    (dojiClassifyStep cm h).mua =
      (if dojiLabelRole h = some Role.mua then some h else cm.mua) ∧
    (dojiClassifyStep cm h).ban =
      (if dojiLabelRole h = some Role.ban then some h else cm.ban) := by
  simp only [dojiClassifyStep, dojiLabelRole]
  by_cases c1 : (pyIn "loại" (pyLower h)
      || pyIn "giá vàng trong nước" (pyLower h)) = true
  · simp [c1]
  · rw [Bool.not_eq_true] at c1
    by_cases c2 : pyIn "mua" (pyLower h) = true
    · simp [c1, c2]
    · rw [Bool.not_eq_true] at c2
      by_cases c3 : pyIn "bán" (pyLower h) = true
      · simp [c1, c2, c3]
      · rw [Bool.not_eq_true] at c3
        simp [c1, c2, c3]

theorem baomoiStep_fields (cm : ColMapO) (h : String) :
    (baomoiClassifyStep cm h).loai =
      (if baomoiLabelRole h = some Role.loai then some h else cm.loai) ∧
    (baomoiClassifyStep cm h).mua =
      (if baomoiLabelRole h = some Role.mua then some h else cm.mua) ∧
    (baomoiClassifyStep cm h).ban =
      (if baomoiLabelRole h = some Role.ban then some h else cm.ban) := by
  simp only [baomoiClassifyStep, baomoiLabelRole]
  by_cases c1 : (pyIn "loại" (pyLower h) && pyIn "vàng" (pyLower h)) = true
  · simp [c1]
  · rw [Bool.not_eq_true] at c1
    by_cases c2 : (pyIn "giá mua" (pyLower h)
        || pyIn "mua" (pyLower h)) = true
    · simp [c1, c2]
    · rw [Bool.not_eq_true] at c2
      by_cases c3 : (pyIn "giá bán" (pyLower h)
          || pyIn "bán" (pyLower h)) = true
      · simp [c1, c2, c3]
      · rw [Bool.not_eq_true] at c3
        simp [c1, c2, c3]

/-- Claim C6 counterexample: the labels `"Giá mua"` and `"Mua khác"`
both classify as the buy-price role, but the DOJI `col_map` records the
**later** column, not the earlier one as claimed. -/
theorem classifier_tie_break_cex :
    dojiLabelRole "Giá mua" = some Role.mua ∧
    dojiLabelRole "Mua khác" = some Role.mua ∧
    (dojiColMap ["Giá mua", "Mua khác"]).mua = some "Mua khác" ∧
    (dojiColMap ["Giá mua", "Mua khác"]).mua ≠ some "Giá mua" := by
  decide

/-- Claim C6 (amended): when two distinct labels match the same
canonical role, column classification assigns the role to the **later**
label in column order (`col_map[role] = col` overwrites); in general
each role maps to the last matching label, in both the DOJI and the
BaoMoi header loops. -/
theorem classifier_tie_break_amended :
    ∀ hs : List String,
      ((dojiColMap hs).loai = (hs.filter
          (fun h => dojiLabelRole h == some Role.loai)).getLast? ∧
        (dojiColMap hs).mua = (hs.filter
          (fun h => dojiLabelRole h == some Role.mua)).getLast? ∧
        (dojiColMap hs).ban = (hs.filter
          (fun h => dojiLabelRole h == some Role.ban)).getLast?) ∧
      ((baomoiColMap hs).loai = (hs.filter
          (fun h => baomoiLabelRole h == some Role.loai)).getLast? ∧
        (baomoiColMap hs).mua = (hs.filter
          (fun h => baomoiLabelRole h == some Role.mua)).getLast? ∧
        (baomoiColMap hs).ban = (hs.filter
          (fun h => baomoiLabelRole h == some Role.ban)).getLast?) := by
  intro hs
  refine ⟨⟨?_, ?_, ?_⟩, ⟨?_, ?_, ?_⟩⟩
  · rw [show dojiColMap hs = hs.foldl dojiClassifyStep ⟨none, none, none⟩
      from rfl, classify_fold_last dojiLabelRole dojiClassifyStep
      ColMapO.loai Role.loai (fun cm h => (dojiStep_fields cm h).1) hs]
    exact Option.or_none
  · rw [show dojiColMap hs = hs.foldl dojiClassifyStep ⟨none, none, none⟩
      from rfl, classify_fold_last dojiLabelRole dojiClassifyStep
      ColMapO.mua Role.mua (fun cm h => (dojiStep_fields cm h).2.1) hs]
    exact Option.or_none
  · rw [show dojiColMap hs = hs.foldl dojiClassifyStep ⟨none, none, none⟩
      from rfl, classify_fold_last dojiLabelRole dojiClassifyStep
      ColMapO.ban Role.ban (fun cm h => (dojiStep_fields cm h).2.2) hs]
    exact Option.or_none
  · rw [show baomoiColMap hs =
      hs.foldl baomoiClassifyStep ⟨none, none, none⟩ from rfl,
      classify_fold_last baomoiLabelRole baomoiClassifyStep
      ColMapO.loai Role.loai (fun cm h => (baomoiStep_fields cm h).1) hs]
    exact Option.or_none
  · rw [show baomoiColMap hs =
      hs.foldl baomoiClassifyStep ⟨none, none, none⟩ from rfl,
      classify_fold_last baomoiLabelRole baomoiClassifyStep
      ColMapO.mua Role.mua (fun cm h => (baomoiStep_fields cm h).2.1) hs]
    exact Option.or_none
  · rw [show baomoiColMap hs =
      hs.foldl baomoiClassifyStep ⟨none, none, none⟩ from rfl,
      classify_fold_last baomoiLabelRole baomoiClassifyStep
      ColMapO.ban Role.ban (fun cm h => (baomoiStep_fields cm h).2.2) hs]
    exact Option.or_none

/-! ### Claim C1 -/

/-- Claim C1 counterexample: among `sampleQuotes` the exact prior name
`"SJC 1L"` is present (price 3000), yet the code's trend lookup — the
substring containment of the fixed search string, first match wins —
settles on the earlier merely-containing name `"XSJC 1LX"` (price 2000),
and that is what the history snapshot records; so no exact-equality
first step exists in the trend calculation. -/
theorem trend_exact_match_cex :
    trendLookupSpec sampleQuotes "SJC 1L" Field.ban = some 3000 ∧
    findItemPrice sampleData "SJC" "SJC 1L" Field.ban = some 2000 ∧
    (buildHistorySnapshot sampleData).sjc1lBan = some 2000 ∧
    (some 2000 : Option Int) ≠ some 3000 := by
  decide

/-- Claim C1 (amended): the trend calculation carries out no
exact-equality step and never consults a prior item name (the snapshot
stores only prices): for each brand both the snapshot entry and the
change line use `_find_item_price` with a fixed per-brand search string
(`"PNJ HCM"`, `"AVPL/SJC"`, `"SJC 1L"`), i.e. case-insensitive substring
containment, first containing quote in iteration order; consequently any
two data maps agreeing on those three lookups produce identical change
sections and snapshots. -/
theorem trend_fixed_substring_amended :
    ∀ (data d₂ : GoldData) (hist : HistorySnapshot),
      (buildHistorySnapshot data).pnjHcmBan =
        findItemPrice data "PNJ" "PNJ HCM" Field.ban ∧
      (buildHistorySnapshot data).dojiAvplBan =
        findItemPrice data "DOJI" "AVPL/SJC" Field.ban ∧
      (buildHistorySnapshot data).sjc1lBan =
        findItemPrice data "SJC" "SJC 1L" Field.ban ∧
      (∀ entries, appendChangeEntries data hist = some entries →
        findItemPrice data "SJC" "SJC 1L" Field.ban ≠ none →
        ("SJC 1L/10L/1KG (Bán)",
          formatChange (findItemPrice data "SJC" "SJC 1L" Field.ban)
            hist.sjc1lBan) ∈ entries) ∧
      (findItemPrice d₂ "PNJ" "PNJ HCM" Field.ban =
          findItemPrice data "PNJ" "PNJ HCM" Field.ban →
        findItemPrice d₂ "DOJI" "AVPL/SJC" Field.ban =
          findItemPrice data "DOJI" "AVPL/SJC" Field.ban →
        findItemPrice d₂ "SJC" "SJC 1L" Field.ban =
          findItemPrice data "SJC" "SJC 1L" Field.ban →
        appendChangeEntries d₂ hist = appendChangeEntries data hist ∧
          buildHistorySnapshot d₂ = buildHistorySnapshot data) := by
  intro data d₂ hist
  refine ⟨rfl, rfl, rfl, ?_, ?_⟩
  · intro entries hsome hne
    simp only [appendChangeEntries] at hsome
    by_cases hguard : (!(pyTruthy hist.pnjHcmBan
        || pyTruthy hist.dojiAvplBan || pyTruthy hist.sjc1lBan)) = true
    · rw [if_pos hguard] at hsome
      cases hsome
    · rw [if_neg hguard] at hsome
      obtain rfl : entries = _ := (Option.some_inj.mp hsome).symm
      have hs : (findItemPrice data "SJC" "SJC 1L" Field.ban).isSome := by
        cases h : findItemPrice data "SJC" "SJC 1L" Field.ban with
        | none => exact absurd h hne
        | some v => rfl
      rw [if_pos hs]
      simp
  · intro h1 h2 h3
    constructor
    · simp only [appendChangeEntries, h1, h2, h3]
    · simp only [buildHistorySnapshot, h1, h2, h3]

/-- Witness for C1 (amended): with `sampleData` and `sampleHistory`, the
change section consists of exactly the SJC entry, whose value is the
substring-lookup price (2000) compared against the stored prior price
(1000): an increase of 1000, i.e. 100 percent. -/
theorem trend_fixed_substring_amended_witness :
    ("SJC 1L/10L/1KG (Bán)",
      formatChange (findItemPrice sampleData "SJC" "SJC 1L" Field.ban)
        sampleHistory.sjc1lBan) ∈
      [("SJC 1L/10L/1KG (Bán)",
        formatChange (findItemPrice sampleData "SJC" "SJC 1L" Field.ban)
          sampleHistory.sjc1lBan)] ∧
    formatChange (findItemPrice sampleData "SJC" "SJC 1L" Field.ban)
      sampleHistory.sjc1lBan =
        ChangeResult.change Direction.tang 1000 100 := by
  constructor
  · exact (trend_fixed_substring_amended sampleData sampleData
        sampleHistory).2.2.2.1
      [("SJC 1L/10L/1KG (Bán)",
        formatChange (findItemPrice sampleData "SJC" "SJC 1L" Field.ban)
          sampleHistory.sjc1lBan)]
      (by rfl) (by decide)
  · show formatChange (some 2000) (some 1000) = _
    simp only [formatChange]
    rw [if_neg (by norm_num)]
    norm_num

end GoldBot
